import Mathlib

/-!
Verification development for the keystone resilience and caching core.

Shallow embedding of the Go sources:
* `package circuit` — circuit breaker (`Breaker`)
* `apps/api/internal/cache/hierarchical.go` — three-tier `HierarchicalCache`
* `apps/api/internal/cache/offline.go` — `OfflineDetector` / `OfflineModeManager`
* `package github` — priority request `Queue`

Machine integers are modelled as `Int` (Go `int`/`int64`; overflow is not
exercised by any statement here), timestamps and durations as `Int`
nanoseconds, and Go maps as association lists whose list order stands for
Go's (unspecified) map iteration order.  Asynchronous effects are made
explicit: every operation takes the current time as an argument, and
external failures (the SQLite exec) are an explicit oracle field.
-/

namespace Keystone

/-! ## Circuit breaker (`package circuit`)

`State`, `Config`, `Breaker` and the operations `beforeCall`, `afterCall`,
`onResult`, `onFailure`, `onSuccess`, `Call` are translated field by field
from the Go source.  `Call`'s goroutine/timeout race is represented by a
`FnOutcome` argument saying whether the function returned (with which
error) before the request timeout fired. -/

/-- Go `circuit.State`: `StateClosed`, `StateOpen`, `StateHalfOpen`. -/
inductive BState where
  | closed
  | opened
  | halfOpen
deriving DecidableEq, Repr

/-- Go `circuit.Config`.  Durations are `Int` nanoseconds. -/
structure BreakerConfig where
  failureThreshold : Int
  recoveryTimeout : Int
  successThreshold : Int
  requestTimeout : Int
  maxConcurrentCalls : Int
deriving DecidableEq, Repr

/-- Errors returned by the breaker (`ErrCircuitOpen`, `ErrTooManyCalls`,
`ErrRequestTimeout`). -/
inductive CBErr where
  | circuitOpen
  | tooManyCalls
  | requestTimeout
deriving DecidableEq, Repr

/-- Go `circuit.Breaker` (the mutex is the sequential embedding itself). -/
structure Breaker where
  config : BreakerConfig
  state : BState
  failureCount : Int
  successCount : Int
  lastFailureTime : Int
  activeCalls : Int
deriving DecidableEq, Repr

/-- Go `circuit.New`: zero counters, `StateClosed`, zero time. -/
def Breaker.new (cfg : BreakerConfig) : Breaker :=
  { config := cfg, state := .closed, failureCount := 0, successCount := 0
    lastFailureTime := 0, activeCalls := 0 }

/-- Go `Breaker.beforeCall`: returns the state observed under the lock, the
updated breaker, and the rejection error if any. -/
def Breaker.beforeCall (b : Breaker) (now : Int) : BState × Breaker × Option CBErr :=
  match b.state with
  | .closed => (.closed, b, none)
  | .opened =>
      if b.config.recoveryTimeout ≤ now - b.lastFailureTime then
        (.halfOpen,
         { b with state := .halfOpen, activeCalls := 0, successCount := 0 },
         none)
      else
        (.opened, b, some .circuitOpen)
  | .halfOpen =>
      if b.config.maxConcurrentCalls ≤ b.activeCalls then
        (.halfOpen, b, some .tooManyCalls)
      else
        (.halfOpen, { b with activeCalls := b.activeCalls + 1 }, none)

/-- Go `Breaker.afterCall`: decrement the active-call gate when the call was
admitted in half-open state. -/
def Breaker.afterCall (b : Breaker) (wasHalfOpen : Bool) : Breaker :=
  if wasHalfOpen then { b with activeCalls := b.activeCalls - 1 } else b

/-- Go `Breaker.onFailure`: bump the failure counter, record the failure
time, and transition per state. -/
def Breaker.onFailure (b : Breaker) (now : Int) : Breaker :=
  let b := { b with failureCount := b.failureCount + 1, lastFailureTime := now }
  match b.state with
  | .closed =>
      if b.config.failureThreshold ≤ b.failureCount then
        { b with state := .opened }
      else b
  | .halfOpen => { b with state := .opened, successCount := 0 }
  | .opened => b

/-- Go `Breaker.onSuccess`. -/
def Breaker.onSuccess (b : Breaker) : Breaker :=
  match b.state with
  | .closed => { b with failureCount := 0 }
  | .halfOpen =>
      let b := { b with successCount := b.successCount + 1 }
      if b.config.successThreshold ≤ b.successCount then
        { b with state := .closed, failureCount := 0, successCount := 0 }
      else b
  | .opened => b

/-- Go `Breaker.onResult`. -/
def Breaker.onResult (b : Breaker) (err : Option CBErr) (now : Int) : Breaker :=
  match err with
  | some _ => b.onFailure now
  | none => b.onSuccess

/-- Outcome of the goroutine/timeout race inside `Breaker.Call`: either the
wrapped function's channel won the `select` (with the function's error, or
`none` for success), or the timeout context fired first. -/
inductive FnOutcome where
  | done (err : Option CBErr)
  | timeout
deriving DecidableEq, Repr

/-- Result of one `Breaker.Call`: the breaker after the call, the returned
error, and how many times the wrapped function was started (0 or 1). -/
structure CallResult where
  breaker : Breaker
  ret : Option CBErr
  fnCalls : Nat
deriving DecidableEq, Repr

/-- Go `Breaker.Call`: `beforeCall`, then (if admitted) start `fn` and race
it against the timeout; `onResult` runs on the winner, and the deferred
`afterCall` runs last.  `tStart` is the time at `beforeCall`, `tEnd` the
time at which the result is processed. -/
def Breaker.call (b : Breaker) (tStart tEnd : Int) (out : FnOutcome) : CallResult :=
  match b.beforeCall tStart with
  | (_, b1, some e) => { breaker := b1, ret := some e, fnCalls := 0 }
  | (st, b1, none) =>
      let err : Option CBErr :=
        match out with
        | .done e => e
        | .timeout => some .requestTimeout
      let b2 := b1.onResult err tEnd
      let b3 := b2.afterCall (st == .halfOpen)
      { breaker := b3, ret := err, fnCalls := 1 }

/-- A sequence of reported failures at the given times. -/
def applyFailures (b : Breaker) (times : List Int) : Breaker :=
  times.foldl Breaker.onFailure b

/-- A sequence of `n` reported successes. -/
def applySuccesses (b : Breaker) : Nat → Breaker
  | 0 => b
  | n + 1 => applySuccesses b.onSuccess n

/-! ### Example instances used by witness theorems -/

/-- A small concrete breaker configuration: threshold 3, recovery 100ns,
success threshold 2, request timeout 50ns, 5 concurrent half-open calls. -/
def cfgEx : BreakerConfig :=
  { failureThreshold := 3, recoveryTimeout := 100, successThreshold := 2
    requestTimeout := 50, maxConcurrentCalls := 5 }

/-- An open breaker that last failed at time 10. -/
def bOpenEx : Breaker :=
  { config := cfgEx, state := .opened, failureCount := 3, successCount := 0
    lastFailureTime := 10, activeCalls := 0 }

/-- A half-open breaker with no successes and no active probes yet. -/
def bHalfEx : Breaker :=
  { config := cfgEx, state := .halfOpen, failureCount := 3, successCount := 0
    lastFailureTime := 10, activeCalls := 0 }

/-- A half-open breaker whose probe gate is saturated. -/
def bHalfFullEx : Breaker :=
  { config := cfgEx, state := .halfOpen, failureCount := 3, successCount := 0
    lastFailureTime := 10, activeCalls := 5 }

/-! ## Hierarchical cache (`apps/api/internal/cache/hierarchical.go`)

The three tiers are association lists keyed by `String`; list order stands
for Go's unspecified map iteration order (and row order for SQLite).  The
opaque `interface{}` payload is a type parameter `α`; JSON
marshal/unmarshal of such a payload is treated as the identity.  The
metrics counters are not modelled (no claim mentions them).  An entry that
`getFromL1` finds expired is scheduled for asynchronous eviction in Go, so
the map itself is unchanged by the read. -/

/-- One hour in nanoseconds (`time.Hour`). -/
def hourNs : Int := 3600 * 1000000000

/-- Go's largest `int64`, the LFU scan's initial bound
(`int64(^uint64(0) >> 1)`). -/
def maxInt64 : Int := 9223372036854775807

/-- An L1 (`l1Cache`) map entry: the fields of `CacheEntry` that L1 uses. -/
structure L1Entry (α : Type) where
  value : α
  expiresAt : Int
  accessTime : Int
  hitCount : Int
deriving DecidableEq, Repr

/-- A row of the SQLite `cache_entries` table. -/
structure L2Entry (α : Type) where
  value : α
  expiresAt : Int
  accessTime : Int
  hitCount : Int
deriving DecidableEq, Repr

/-- An object held by the remote (L3) cache backend together with the TTL
deadline it was stored with. -/
structure L3Entry (α : Type) where
  value : α
  expiresAt : Int
deriving DecidableEq, Repr

/-- Go `cache.CacheConfig` (the memory budget is unused by the code paths
claimed about). -/
structure CacheConfig where
  l1MaxItems : Int
  l1TTL : Int
  l2TTL : Int
  l3TTL : Int
  evictionPolicy : String
deriving DecidableEq, Repr

/-- The mutable state of a `HierarchicalCache`: the three tiers plus an
oracle `l2Fail` telling whether the next SQLite write errors. -/
structure CacheState (α : Type) where
  l1 : List (String × L1Entry α)
  l2 : List (String × L2Entry α)
  l3 : List (String × L3Entry α)
  l2Fail : Bool
deriving DecidableEq, Repr

/-- The error a failed `Set` propagates (`failed to set L2 cache`). -/
inductive CacheError where
  | l2WriteFailed
deriving DecidableEq, Repr

/-- Association-list lookup (Go map indexing / SQL `WHERE key = ?`). -/
def alookup (k : String) : List (String × β) → Option β
  | [] => none
  | p :: rest => if p.1 = k then some p.2 else alookup k rest

/-- Association-list insert-or-replace (Go map assignment / SQL
`INSERT OR REPLACE`). -/
def aupsert (k : String) (v : β) : List (String × β) → List (String × β)
  | [] => [(k, v)]
  | p :: rest => if p.1 = k then (k, v) :: rest else p :: aupsert k v rest

/-- Association-list removal of a key (Go `delete` / SQL `DELETE`). -/
def aremove (k : String) : List (String × β) → List (String × β)
  | [] => []
  | p :: rest => if p.1 = k then rest else p :: aremove k rest

/-- Go `HierarchicalCache.getFromL1`: miss on absent or expired entries
(`time.Now().After(entry.ExpiresAt)`); a hit updates `AccessTime` and
`HitCount` in place. -/
def getFromL1 (st : CacheState α) (now : Int) (key : String) :
    Option α × CacheState α :=
  match alookup key st.l1 with
  | none => (none, st)
  | some e =>
      if now > e.expiresAt then (none, st)
      else
        (some e.value,
         { st with
            l1 := aupsert key { e with accessTime := now, hitCount := e.hitCount + 1 } st.l1 })

/-- The per-entry quantity the eviction scan minimises, per policy string
(`switch h.config.EvictionPolicy`): `AccessTime` for `"LRU"`, `HitCount`
for `"LFU"`, `ExpiresAt` otherwise. -/
def critOf (policy : String) : L1Entry α → Int :=
  if policy = "LRU" then fun e => e.accessTime
  else if policy = "LFU" then fun e => e.hitCount
  else fun e => e.expiresAt

/-- The initial bound of the eviction scan: `time.Now()` for `"LRU"`,
max `int64` for `"LFU"`, `time.Now().Add(24 * time.Hour)` otherwise. -/
def boundOf (policy : String) (now : Int) : Int :=
  if policy = "LRU" then now
  else if policy = "LFU" then maxInt64
  else now + 24 * hourNs

/-- The loop body of `evictFromL1`: walk the map keeping the current bound
and candidate key, replacing them whenever an entry is strictly below the
bound. -/
def scanEvict (crit : L1Entry α → Int) :
    List (String × L1Entry α) → Int → String → Int × String
  | [], bound, best => (bound, best)
  | p :: rest, bound, best =>
      if crit p.2 < bound then scanEvict crit rest (crit p.2) p.1
      else scanEvict crit rest bound best

/-- The key `evictFromL1` selects (`keyToEvict`, initially `""`). -/
def evictScanKey (policy : String) (now : Int)
    (l1 : List (String × L1Entry α)) : String :=
  (scanEvict (critOf policy) l1 (boundOf policy now) "").2

/-- Go `HierarchicalCache.evictFromL1`: nothing happens on an empty map or
when the scan never moved off the initial `""` key. -/
def evictFromL1 (policy : String) (now : Int)
    (l1 : List (String × L1Entry α)) : List (String × L1Entry α) :=
  if l1.isEmpty then l1
  else
    let k := evictScanKey policy now l1
    if k = "" then l1 else aremove k l1

/-- Go `HierarchicalCache.setToL1`: evict once when the map is at or above
`L1MaxItems`, then insert the fresh entry (zero hit count, `AccessTime`
and `ExpiresAt` from `now`). -/
def setToL1 (cfg : CacheConfig) (st : CacheState α) (now : Int)
    (key : String) (v : α) (ttl : Int) : CacheState α :=
  let l1 :=
    if cfg.l1MaxItems ≤ (st.l1.length : Int) then
      evictFromL1 cfg.evictionPolicy now st.l1
    else st.l1
  { st with
      l1 := aupsert key
        { value := v, expiresAt := now + ttl, accessTime := now, hitCount := 0 } l1 }

/-- Go `HierarchicalCache.getFromL2`: the SQL `SELECT` only matches rows
with `expires_at > now`; a hit bumps the row's access statistics. -/
def getFromL2 (st : CacheState α) (now : Int) (key : String) :
    Option α × CacheState α :=
  match alookup key st.l2 with
  | none => (none, st)
  | some e =>
      if e.expiresAt > now then
        (some e.value,
         { st with
            l2 := aupsert key { e with accessTime := now, hitCount := e.hitCount + 1 } st.l2 })
      else (none, st)

/-- Go `HierarchicalCache.setToL2`: `INSERT OR REPLACE` writes a fresh row
(default zero hit count and current access time); the `l2Fail` oracle
stands for a marshal or database error, in which case nothing is
written. -/
def setToL2 (st : CacheState α) (now : Int) (key : String) (v : α) (ttl : Int) :
    Option CacheError × CacheState α :=
  if st.l2Fail then (some .l2WriteFailed, st)
  else
    (none,
     { st with
        l2 := aupsert key
          { value := v, expiresAt := now + ttl, accessTime := now, hitCount := 0 } st.l2 })

/-- Go `HierarchicalCache.getFromL3` delegates to the `L3CacheClient`
interface.  Modelled from the spec: the client implementation is not under
`src/` (only the interface declaration is); per the spec an entry visible
in a tier must not be returned past `expiresAt`, so the backend honours
the TTL it was given at `Set`. -/
def getFromL3 (st : CacheState α) (now : Int) (key : String) :
    Option α × CacheState α :=
  match alookup key st.l3 with
  | none => (none, st)
  | some e => if e.expiresAt > now then (some e.value, st) else (none, st)

/-- Go `HierarchicalCache.setToL3` via the `L3CacheClient` interface.
Modelled from the spec: the backend stores the value under the given TTL
deadline. -/
def setToL3 (st : CacheState α) (now : Int) (key : String) (v : α) (ttl : Int) :
    CacheState α :=
  { st with l3 := aupsert key { value := v, expiresAt := now + ttl } st.l3 }

/-- Go `HierarchicalCache.Get`: probe L1, then L2 (promoting a hit to L1
with the configured `L1TTL`), then L3 (promoting a hit to L1 and L2 with
the configured `L1TTL` and `L2TTL`; the promotion's L2 write error is
discarded, as in the source). -/
def cacheGet (cfg : CacheConfig) (st : CacheState α) (now : Int) (key : String) :
    Option α × CacheState α :=
  match getFromL1 st now key with
  | (some v, st1) => (some v, st1)
  | (none, st1) =>
      match getFromL2 st1 now key with
      | (some v, st2) => (some v, setToL1 cfg st2 now key v cfg.l1TTL)
      | (none, st2) =>
          match getFromL3 st2 now key with
          | (some v, st3) =>
              let st4 := setToL1 cfg st3 now key v cfg.l1TTL
              (some v, (setToL2 st4 now key v cfg.l2TTL).2)
          | (none, st3) => (none, st3)

/-- Go `HierarchicalCache.Set`: write L1 unconditionally, then L2 — whose
failure aborts the call with an error before L3 is attempted — then L3,
whose failure is swallowed. -/
def cacheSet (cfg : CacheConfig) (st : CacheState α) (now : Int)
    (key : String) (v : α) (ttl : Int) : Option CacheError × CacheState α :=
  let st1 := setToL1 cfg st now key v ttl
  match setToL2 st1 now key v ttl with
  | (some e, st2) => (some e, st2)
  | (none, st2) => (none, setToL3 st2 now key v ttl)

/-! ## Offline detector and manager (`apps/api/internal/cache/offline.go`) -/

/-- Go `cache.OfflineMode`: `OnlineMode`, `LimitedMode`, `OfflineMode`. -/
inductive OperatingMode where
  | onlineMode
  | limitedMode
  | offlineMode
deriving DecidableEq, Repr

/-- The part of Go `cache.ServiceConfig` that `updateMode` reads. -/
structure ServiceConfig where
  name : String
  critical : Bool
deriving DecidableEq, Repr

/-- `totalCriticalServices` accumulated by `OfflineDetector.updateMode`. -/
def criticalCount (services : List ServiceConfig) : Nat :=
  (services.filter (fun s => s.critical)).length

/-- `criticalServicesDown` accumulated by `OfflineDetector.updateMode`:
critical services whose consecutive error count has reached
`offlineThreshold`. -/
def downCount (services : List ServiceConfig) (errCount : String → Int)
    (threshold : Int) : Nat :=
  (services.filter (fun s => s.critical && decide (threshold ≤ errCount s.name))).length

/-- Go `OfflineDetector.updateMode`: the `switch` deriving the mode from
the two counters. -/
def updateMode (services : List ServiceConfig) (errCount : String → Int)
    (threshold : Int) : OperatingMode :=
  if downCount services errCount threshold = 0 then .onlineMode
  else if downCount services errCount threshold < criticalCount services then .limitedMode
  else .offlineMode

/-- The cache key `OfflineModeManager` uses (`fmt.Sprintf("cve:%s", id)`). -/
def cveKey (cveID : String) : String := "cve:" ++ cveID

/-- Go `OfflineModeManager.fetchFromLiveAPI`: build the live payload
(abstracted as `live cveID`), cache it for one hour (the `Set` error is
discarded, as in the source), and return it. -/
def fetchFromLiveAPI (cfg : CacheConfig) (st : CacheState α) (live : String → α)
    (now : Int) (cveID : String) : α × CacheState α :=
  (live cveID, (cacheSet cfg st now (cveKey cveID) (live cveID) hourNs).2)

/-- Go `OfflineModeManager.GetVulnerabilityData`: consult the hierarchical
cache first in every mode; on a miss branch on the operating mode —
Online fetches live, Limited tries the local vulnerability database before
falling back to a live fetch, Offline consults only the local database.
`localDB` abstracts `fetchFromLocalDB` (a `none` covers both a missing row
and an unparsable one); the third component counts live-API fetches. -/
def getVulnerabilityData (cfg : CacheConfig) (st : CacheState α)
    (live : String → α) (localDB : String → Option α) (mode : OperatingMode)
    (now : Int) (cveID : String) : Except String α × CacheState α × Nat :=
  match cacheGet cfg st now (cveKey cveID) with
  | (some v, st1) => (.ok v, st1, 0)
  | (none, st1) =>
      match mode with
      | .onlineMode =>
          let r := fetchFromLiveAPI cfg st1 live now cveID
          (.ok r.1, r.2, 1)
      | .limitedMode =>
          match localDB cveID with
          | some v => (.ok v, st1, 0)
          | none =>
              let r := fetchFromLiveAPI cfg st1 live now cveID
              (.ok r.1, r.2, 1)
      | .offlineMode =>
          match localDB cveID with
          | some v => (.ok v, st1, 0)
          | none => (.error "vulnerability not found in local database", st1, 0)

/-! ## Priority request queue (`package github`)

The worker loop is embedded as a transition system driven by a list of
scheduler events: `shutdownSignal` (the `<-q.shutdown` select case),
`tickSignal` (the batch-interval ticker case) and `tryNext` (the default
case polling the buffers).  `processBatch` hands every request of the
batch to `processRequest`, which sends exactly one value on the request's
result channel on every control path, so dispatching a batch is modelled
as moving it to `resolved`. -/

/-- Go `github.Priority`. -/
inductive QPriority where
  | low
  | normal
  | high
  | critical
deriving DecidableEq, Repr

/-- Go `github.Request` (the callable and channel are identified by `id`). -/
structure QRequest where
  id : String
  priority : QPriority
deriving DecidableEq, Repr

/-- The four bounded priority buffers (`q.queues`), each a FIFO. -/
structure Buffers where
  critical : List QRequest
  high : List QRequest
  normal : List QRequest
  low : List QRequest
deriving DecidableEq, Repr

/-- Go `Queue.getNextRequest`: non-blocking receive from the buffers in
strict priority order. -/
def popNext (b : Buffers) : Option (QRequest × Buffers) :=
  match b.critical with
  | r :: rest => some (r, { b with critical := rest })
  | [] =>
      match b.high with
      | r :: rest => some (r, { b with high := rest })
      | [] =>
          match b.normal with
          | r :: rest => some (r, { b with normal := rest })
          | [] =>
              match b.low with
              | r :: rest => some (r, { b with low := rest })
              | [] => none

/-- The state of one worker: the shared buffers, its private batch, the
requests whose result channel has received a value, and whether the worker
has returned. -/
structure WorkerState where
  bufs : Buffers
  batch : List QRequest
  resolved : List QRequest
  exited : Bool
deriving DecidableEq, Repr

/-- One scheduler event for the worker's `select` loop. -/
inductive WEvent where
  | shutdownSignal
  | tickSignal
  | tryNext
deriving DecidableEq, Repr

/-- Go `Queue.worker`, one loop iteration: on shutdown flush the current
batch and return; on a tick flush the current batch; otherwise poll the
buffers, appending to the batch and dispatching it once it reaches
`batchSize`. -/
def wstep (batchSize : Nat) (s : WorkerState) (e : WEvent) : WorkerState :=
  if s.exited then s
  else
    match e with
    | .shutdownSignal =>
        { s with resolved := s.resolved ++ s.batch, batch := [], exited := true }
    | .tickSignal =>
        { s with resolved := s.resolved ++ s.batch, batch := [] }
    | .tryNext =>
        match popNext s.bufs with
        | none => s
        | some (r, bufs2) =>
            let batch2 := s.batch ++ [r]
            if batchSize ≤ batch2.length then
              { s with bufs := bufs2, batch := [], resolved := s.resolved ++ batch2 }
            else
              { s with bufs := bufs2, batch := batch2 }

/-- The worker loop over a whole schedule of events. -/
def wrun (batchSize : Nat) (s : WorkerState) (events : List WEvent) : WorkerState :=
  events.foldl (wstep batchSize) s

/-- Every request the queue has accepted and not lost: buffered, batched,
or resolved. -/
def allReqs (s : WorkerState) : List QRequest :=
  s.bufs.critical ++ s.bufs.high ++ s.bufs.normal ++ s.bufs.low ++ s.batch ++ s.resolved

/-! ### Example cache, detector and queue instances used by witness and
counterexample theorems (payload type `Nat`) -/

/-- Concrete cache configuration: 2 L1 slots, TTLs 100/200/300ns, LRU. -/
def cacheCfgEx : CacheConfig :=
  { l1MaxItems := 2, l1TTL := 100, l2TTL := 200, l3TTL := 300, evictionPolicy := "LRU" }

/-- A cache whose L1 holds `"k" ↦ 7` (expires at 50). -/
def stL1hitEx : CacheState Nat := ⟨[("k", ⟨7, 50, 1, 0⟩)], [], [], false⟩

/-- `stL1hitEx` after a hit at time 10 updated the access statistics. -/
def stL1hitUpdEx : CacheState Nat := ⟨[("k", ⟨7, 50, 10, 1⟩)], [], [], false⟩

/-- A cache holding `"k" ↦ 8` only in L2. -/
def stL2hitEx : CacheState Nat := ⟨[], [("k", ⟨8, 50, 1, 0⟩)], [], false⟩

/-- `stL2hitEx` after the L2 row's statistics were bumped at time 10. -/
def stL2hitUpdEx : CacheState Nat := ⟨[], [("k", ⟨8, 50, 10, 1⟩)], [], false⟩

/-- A cache holding `"k" ↦ 9` only in L3. -/
def stL3hitEx : CacheState Nat := ⟨[], [], [("k", ⟨9, 50⟩)], false⟩

/-- An empty cache with a healthy L2. -/
def stEmptyEx : CacheState Nat := ⟨[], [], [], false⟩

/-- An empty cache whose next SQLite write fails. -/
def stL2FailEx : CacheState Nat := ⟨[], [], [], true⟩

/-- `stEmptyEx` after `Set("k", 5, 100)` at time 0. -/
def stSetEx : CacheState Nat :=
  ⟨[("k", ⟨5, 100, 0, 0⟩)], [("k", ⟨5, 100, 0, 0⟩)], [("k", ⟨5, 100⟩)], false⟩

/-- Capacity-1 cache with the TTL eviction policy. -/
def cfgTTLEx : CacheConfig :=
  { l1MaxItems := 1, l1TTL := 100, l2TTL := 200, l3TTL := 300, evictionPolicy := "TTL" }

/-- A full (one-slot) L1 whose single entry expires 25 hours from time 0,
i.e. beyond the TTL scan's 24-hour initial bound. -/
def stTTLFullEx : CacheState Nat := ⟨[("a", ⟨3, 25 * hourNs, 0, 0⟩)], [], [], false⟩

/-- A full two-slot L1 for the LRU policy: `"a"` last accessed at 3, `"b"`
at 1, both accessed before time 10. -/
def stLRUFullEx : CacheState Nat :=
  ⟨[("a", ⟨1, 50, 3, 0⟩), ("b", ⟨2, 60, 1, 0⟩)], [], [], false⟩

/-- Three critical monitored services. -/
def servicesEx : List ServiceConfig :=
  [⟨"svc1", true⟩, ⟨"svc2", true⟩, ⟨"svc3", true⟩]

/-- All services healthy. -/
def errAllZeroEx : String → Int := fun _ => 0

/-- Exactly one service over the threshold 3. -/
def errOneDownEx : String → Int := fun s => if s = "svc1" then 3 else 0

/-- Every service over the threshold 3. -/
def errAllDownEx : String → Int := fun _ => 3

/-- Live fetch stub for the offline-manager witnesses. -/
def liveEx : String → Nat := fun _ => 42

/-- A local vulnerability database that knows every key. -/
def localDBSomeEx : String → Option Nat := fun _ => some 7

/-- An empty local vulnerability database. -/
def localDBNoneEx : String → Option Nat := fun _ => none

/-- A cache whose L1 already holds the key `cve:CVE-1`. -/
def stCveHitEx : CacheState Nat := ⟨[("cve:CVE-1", ⟨5, 50, 1, 0⟩)], [], [], false⟩

/-- `stCveHitEx` after the hit at time 10 updated the access statistics. -/
def stCveHitUpdEx : CacheState Nat := ⟨[("cve:CVE-1", ⟨5, 50, 10, 1⟩)], [], [], false⟩

/-- A queued low-priority request. -/
def reqEx : QRequest := ⟨"r0", .low⟩

/-- A worker with an empty batch and one request waiting in the low
buffer. -/
def wsAbandonEx : WorkerState := ⟨⟨[], [], [], [reqEx]⟩, [], [], false⟩

/-- A worker with one critical and one low buffered request and one
request already in its batch. -/
def wsMixEx : WorkerState :=
  ⟨⟨[⟨"c1", .critical⟩], [], [], [reqEx]⟩, [⟨"b1", .normal⟩], [], false⟩

/-! ### Circuit breaker lemmas -/

theorem onFailure_opened (b : Breaker) (t : Int) (h : b.state = .opened) :
    (b.onFailure t).state = .opened ∧ (b.onFailure t).lastFailureTime = t := by
  simp [Breaker.onFailure, h]

theorem applyFailures_opened (times : List Int) (b : Breaker) (h : b.state = .opened) :
    (applyFailures b times).state = .opened ∧
      (applyFailures b times).lastFailureTime = times.getLastD b.lastFailureTime := by
  induction times generalizing b with
  | nil => simp [applyFailures, h]
  | cons t rest ih =>
      have hb := onFailure_opened b t h
      have := ih (b.onFailure t) hb.1
      simp only [applyFailures, List.foldl_cons] at this ⊢
      rcases rest with _ | ⟨t2, rest2⟩
      · simpa [hb.2] using this
      · simpa using this

theorem applyFailures_opens (times : List Int) (b : Breaker)
    (hst : b.state = .closed) (hcnt : b.config.failureThreshold ≤ b.failureCount + times.length)
    (hne : times ≠ []) :
    (applyFailures b times).state = .opened ∧
      (applyFailures b times).lastFailureTime = times.getLastD b.lastFailureTime := by
  induction times generalizing b with
  | nil => exact absurd rfl hne
  | cons t rest ih =>
      simp only [applyFailures, List.foldl_cons]
      by_cases hthr : b.config.failureThreshold ≤ b.failureCount + 1
      · have hopen : (b.onFailure t).state = .opened := by
          simp [Breaker.onFailure, hst, hthr]
        have := applyFailures_opened rest (b.onFailure t) hopen
        have hlt : (b.onFailure t).lastFailureTime = t := by
          simp [Breaker.onFailure, hst, hthr]
        rcases rest with _ | ⟨t2, rest2⟩
        · simpa [applyFailures, hlt] using this
        · simpa [applyFailures] using this
      · have hcl : (b.onFailure t).state = .closed := by
          simp [Breaker.onFailure, hst, hthr]
        have hcount : (b.onFailure t).failureCount = b.failureCount + 1 := by
          simp [Breaker.onFailure, hst, hthr]
        have hlt : (b.onFailure t).lastFailureTime = t := by
          simp [Breaker.onFailure, hst, hthr]
        have hcfg : (b.onFailure t).config = b.config := by
          simp [Breaker.onFailure, hst, hthr]
        have hne2 : rest ≠ [] := by
          intro hr
          subst hr
          simp at hcnt
          omega
        have := ih (b.onFailure t) hcl
          (by rw [hcount, hcfg]; simp at hcnt ⊢; omega) hne2
        rcases rest with _ | ⟨t2, rest2⟩
        · exact absurd rfl hne2
        · simpa [applyFailures] using this

theorem applySuccesses_closed_zero (n : Nat) (b : Breaker)
    (hst : b.state = .closed) (hf : b.failureCount = 0) (hsc : b.successCount = 0) :
    (applySuccesses b n).state = .closed ∧ (applySuccesses b n).failureCount = 0 ∧
      (applySuccesses b n).successCount = 0 := by
  induction n generalizing b with
  | zero => exact ⟨hst, hf, hsc⟩
  | succ n ih =>
      have hb : b.onSuccess = { b with failureCount := 0 } := by
        simp [Breaker.onSuccess, hst]
      exact ih b.onSuccess (by rw [hb]; exact hst) (by rw [hb]) (by rw [hb]; exact hsc)

theorem applySuccesses_closes (n : Nat) (b : Breaker)
    (hst : b.state = .halfOpen)
    (hcnt : b.config.successThreshold ≤ b.successCount + n) (hn : n ≠ 0) :
    (applySuccesses b n).state = .closed ∧ (applySuccesses b n).failureCount = 0 ∧
      (applySuccesses b n).successCount = 0 := by
  induction n generalizing b with
  | zero => exact absurd rfl hn
  | succ n ih =>
      show (applySuccesses b.onSuccess n).state = .closed ∧ _
      by_cases hthr : b.config.successThreshold ≤ b.successCount + 1
      · have hb : b.onSuccess =
            { b with state := .closed, failureCount := 0, successCount := 0 } := by
          simp [Breaker.onSuccess, hst, hthr]
        exact applySuccesses_closed_zero n b.onSuccess (by rw [hb]) (by rw [hb]) (by rw [hb])
      · have hb : b.onSuccess = { b with successCount := b.successCount + 1 } := by
          simp [Breaker.onSuccess, hst, hthr]
        have hn2 : n ≠ 0 := by
          intro h0
          subst h0
          simp at hcnt
          omega
        exact ih b.onSuccess (by rw [hb]; exact hst)
          (by rw [hb]; simp at hcnt ⊢; omega) hn2

/-! ### Claim C1 -/

/-- C1: starting Closed, `failureThreshold` consecutive reported failures
transition the breaker to Open and record the failure time; while Open, the
first call arriving once at least `recoveryTimeout` has elapsed since
`lastFailureTime` transitions the state to HalfOpen and is admitted;
`successThreshold` consecutive successes while HalfOpen transition the
state to Closed and reset the failure and success counters; and any single
failure while HalfOpen transitions the state back to Open. -/
theorem C1_breaker_state_machine (cfg : BreakerConfig)
    (hF : 1 ≤ cfg.failureThreshold) (hS : 1 ≤ cfg.successThreshold) :
    (∀ times : List Int, (times.length : Int) = cfg.failureThreshold →
      (applyFailures (Breaker.new cfg) times).state = .opened ∧
        (applyFailures (Breaker.new cfg) times).lastFailureTime = times.getLastD 0)
    ∧ (∀ b : Breaker, b.config = cfg → b.state = .opened → ∀ now : Int,
        cfg.recoveryTimeout ≤ now - b.lastFailureTime →
        (b.beforeCall now).1 = .halfOpen ∧ (b.beforeCall now).2.1.state = .halfOpen ∧
          (b.beforeCall now).2.2 = none)
    ∧ (∀ b : Breaker, b.config = cfg → b.state = .halfOpen → b.successCount = 0 →
        (applySuccesses b cfg.successThreshold.toNat).state = .closed ∧
          (applySuccesses b cfg.successThreshold.toNat).failureCount = 0 ∧
          (applySuccesses b cfg.successThreshold.toNat).successCount = 0)
    ∧ (∀ (b : Breaker) (now : Int), b.state = .halfOpen →
        (b.onFailure now).state = .opened) := by
  refine ⟨?_, ?_, ?_, ?_⟩
  · intro times hlen
    have hne : times ≠ [] := by
      intro h0
      subst h0
      simp at hlen
      omega
    exact applyFailures_opens times (Breaker.new cfg) rfl
      (by simp [Breaker.new, hlen]) hne
  · intro b hcfg hst now helapsed
    rw [← hcfg] at helapsed
    simp [Breaker.beforeCall, hst, helapsed]
  · intro b hcfg hst hsc
    refine applySuccesses_closes cfg.successThreshold.toNat b hst ?_ ?_
    · rw [hcfg, hsc]
      omega
    · omega
  · intro b now hst
    simp [Breaker.onFailure, hst]

/-- Witness for C1 at `cfgEx` (thresholds 3 and 2). -/
theorem C1_witness :
    (applyFailures (Breaker.new cfgEx) [5, 6, 7]).state = .opened ∧
      (applyFailures (Breaker.new cfgEx) [5, 6, 7]).lastFailureTime = 7 ∧
      (bOpenEx.beforeCall 110).2.1.state = .halfOpen ∧
      (applySuccesses bHalfEx (2 : Int).toNat).state = .closed ∧
      (bHalfEx.onFailure 42).state = .opened := by
  have h := C1_breaker_state_machine cfgEx (by decide) (by decide)
  refine ⟨(h.1 [5, 6, 7] (by decide)).1, ?_, ?_, ?_, ?_⟩
  · simpa using (h.1 [5, 6, 7] (by decide)).2
  · exact (h.2.1 bOpenEx rfl rfl 110 (by decide)).2.1
  · exact (h.2.2.1 bHalfEx rfl rfl rfl).1
  · exact h.2.2.2 bHalfEx 42 rfl

/-! ### Claim C2 -/

/-- C2: while Open, a call arriving strictly before `recoveryTimeout` has
elapsed since `lastFailureTime` returns the circuit-open error, leaves the
breaker unchanged, and never starts the wrapped function. -/
theorem C2_open_rejects_without_invoking (b : Breaker) (now tEnd : Int) (out : FnOutcome)
    (hst : b.state = .opened)
    (hearly : now - b.lastFailureTime < b.config.recoveryTimeout) :
    b.call now tEnd out = { breaker := b, ret := some .circuitOpen, fnCalls := 0 } := by
  have hlt : ¬ b.config.recoveryTimeout ≤ now - b.lastFailureTime := by omega
  simp [Breaker.call, Breaker.beforeCall, hst, hlt]

/-- Witness for C2: `bOpenEx` rejects a call at time 50 < 10 + 100. -/
theorem C2_witness :
    bOpenEx.call 50 51 (.done none) =
      { breaker := bOpenEx, ret := some .circuitOpen, fnCalls := 0 } :=
  C2_open_rejects_without_invoking bOpenEx 50 51 (.done none) rfl (by decide)

/-! ### Claim C3 -/

/-- C3: the half-open probe gate.  The initial breaker satisfies
`activeCalls ≤ maxConcurrentCalls`; `beforeCall`, `afterCall` and
`onResult` (the only operations touching breaker state under the lock)
each preserve that bound; and a call arriving while HalfOpen with the gate
saturated is rejected with the too-many-calls error without the wrapped
function being started. -/
theorem C3_halfopen_concurrency_limit :
    (∀ cfg : BreakerConfig, 0 ≤ cfg.maxConcurrentCalls →
      (Breaker.new cfg).activeCalls ≤ cfg.maxConcurrentCalls)
    ∧ (∀ (b : Breaker) (now : Int), 0 ≤ b.config.maxConcurrentCalls →
        b.activeCalls ≤ b.config.maxConcurrentCalls →
        (b.beforeCall now).2.1.activeCalls ≤ b.config.maxConcurrentCalls ∧
          (b.beforeCall now).2.1.config = b.config)
    ∧ (∀ (b : Breaker) (flag : Bool), b.activeCalls ≤ b.config.maxConcurrentCalls →
        (b.afterCall flag).activeCalls ≤ b.config.maxConcurrentCalls ∧
          (b.afterCall flag).config = b.config)
    ∧ (∀ (b : Breaker) (err : Option CBErr) (now : Int),
        (b.onResult err now).activeCalls = b.activeCalls ∧
          (b.onResult err now).config = b.config)
    ∧ (∀ (b : Breaker) (tStart tEnd : Int) (out : FnOutcome),
        b.state = .halfOpen → b.config.maxConcurrentCalls ≤ b.activeCalls →
        b.call tStart tEnd out = { breaker := b, ret := some .tooManyCalls, fnCalls := 0 }) := by
  refine ⟨?_, ?_, ?_, ?_, ?_⟩
  · intro cfg hmax
    simpa [Breaker.new] using hmax
  · intro b now hmax hinv
    cases hst : b.state with
    | closed => simp [Breaker.beforeCall, hst, hinv]
    | opened =>
        by_cases hrec : b.config.recoveryTimeout ≤ now - b.lastFailureTime
        · simp [Breaker.beforeCall, hst, hrec, hmax]
        · simp [Breaker.beforeCall, hst, hrec, hinv]
    | halfOpen =>
        by_cases hfull : b.config.maxConcurrentCalls ≤ b.activeCalls
        · simp [Breaker.beforeCall, hst, hfull, hinv]
        · constructor
          · simp only [Breaker.beforeCall, hst, if_neg hfull]
            omega
          · simp [Breaker.beforeCall, hst, hfull]
  · intro b flag hinv
    cases flag <;> constructor <;> simp [Breaker.afterCall] <;> omega
  · intro b err now
    cases err with
    | none =>
        cases hst : b.state with
        | closed => simp [Breaker.onResult, Breaker.onSuccess, hst]
        | opened => simp [Breaker.onResult, Breaker.onSuccess, hst]
        | halfOpen =>
            by_cases hthr : b.config.successThreshold ≤ b.successCount + 1
            · simp [Breaker.onResult, Breaker.onSuccess, hst, hthr]
            · simp [Breaker.onResult, Breaker.onSuccess, hst, hthr]
    | some e =>
        cases hst : b.state with
        | closed =>
            by_cases hthr : b.config.failureThreshold ≤ b.failureCount + 1
            · simp [Breaker.onResult, Breaker.onFailure, hst, hthr]
            · simp [Breaker.onResult, Breaker.onFailure, hst, hthr]
        | opened => simp [Breaker.onResult, Breaker.onFailure, hst]
        | halfOpen => simp [Breaker.onResult, Breaker.onFailure, hst]
  · intro b tStart tEnd out hst hfull
    simp [Breaker.call, Breaker.beforeCall, hst, hfull]

/-- Witness for C3: the saturated half-open breaker `bHalfFullEx`
(5 active probes, limit 5) rejects a further call, and the primitive
operations keep its probe counter within the limit. -/
theorem C3_witness :
    (Breaker.new cfgEx).activeCalls ≤ cfgEx.maxConcurrentCalls ∧
      (bHalfFullEx.beforeCall 200).2.1.activeCalls ≤ bHalfFullEx.config.maxConcurrentCalls ∧
      (bHalfFullEx.afterCall true).activeCalls ≤ bHalfFullEx.config.maxConcurrentCalls ∧
      bHalfFullEx.call 200 201 (.done none) =
        { breaker := bHalfFullEx, ret := some .tooManyCalls, fnCalls := 0 } := by
  have h := C3_halfopen_concurrency_limit
  exact ⟨h.1 cfgEx (by decide), (h.2.1 bHalfFullEx 200 (by decide) (by decide)).1,
    (h.2.2.1 bHalfFullEx true (by decide)).1,
    h.2.2.2.2 bHalfFullEx 200 201 (.done none) rfl (by decide)⟩

/-! ### Association-list lemmas -/

theorem alookup_aupsert (k : String) (v : β) (l : List (String × β)) :
    alookup k (aupsert k v l) = some v := by
  induction l with
  | nil => simp [aupsert, alookup]
  | cons p rest ih =>
      by_cases h : p.1 = k
      · simp [aupsert, h, alookup]
      · simp [aupsert, h, alookup, ih]

theorem alookup_none_not_mem (k : String) (l : List (String × β))
    (h : alookup k l = none) : k ∉ l.map Prod.fst := by
  induction l with
  | nil => simp
  | cons p rest ih =>
      by_cases hp : p.1 = k
      · simp [alookup, hp] at h
      · simp [alookup, hp] at h
        simp [hp, ih h]
        exact fun heq => hp heq.symm

theorem alookup_aremove_none (k j : String) (l : List (String × β))
    (h : alookup k l = none) : alookup k (aremove j l) = none := by
  induction l with
  | nil => simpa [aremove] using h
  | cons p rest ih =>
      by_cases hp : p.1 = k
      · simp [alookup, hp] at h
      · simp [alookup, hp] at h
        by_cases hj : p.1 = j
        · simpa [aremove, hj] using h
        · simp [aremove, hj, alookup, hp, ih h]

theorem aupsert_length_of_none (k : String) (v : β) (l : List (String × β))
    (h : alookup k l = none) : (aupsert k v l).length = l.length + 1 := by
  induction l with
  | nil => simp [aupsert]
  | cons p rest ih =>
      by_cases hp : p.1 = k
      · simp [alookup, hp] at h
      · simp [alookup, hp] at h
        simp [aupsert, hp, ih h]

theorem aremove_length_of_mem (k : String) (l : List (String × β))
    (h : k ∈ l.map Prod.fst) : (aremove k l).length + 1 = l.length := by
  induction l with
  | nil => simp at h
  | cons p rest ih =>
      by_cases hp : p.1 = k
      · simp [aremove, hp]
      · have : k ∈ rest.map Prod.fst := by
          simp at h
          rcases h with h | h
          · exact absurd h.symm (by simpa using hp)
          · simpa using h
        simp [aremove, hp, ih this]

/-! ### Tier-local projection lemmas -/

theorem getFromL1_proj (st : CacheState α) (now : Int) (key : String) :
    (getFromL1 st now key).2.l2 = st.l2 ∧ (getFromL1 st now key).2.l3 = st.l3 ∧
      (getFromL1 st now key).2.l2Fail = st.l2Fail := by
  unfold getFromL1
  cases alookup key st.l1 with
  | none => exact ⟨rfl, rfl, rfl⟩
  | some e =>
      by_cases h : now > e.expiresAt
      · simp [h]
      · simp [h]

theorem getFromL2_proj (st : CacheState α) (now : Int) (key : String) :
    (getFromL2 st now key).2.l1 = st.l1 ∧ (getFromL2 st now key).2.l3 = st.l3 ∧
      (getFromL2 st now key).2.l2Fail = st.l2Fail := by
  unfold getFromL2
  cases alookup key st.l2 with
  | none => exact ⟨rfl, rfl, rfl⟩
  | some e =>
      by_cases h : e.expiresAt > now
      · simp [h]
      · simp [h]

theorem getFromL3_state (st : CacheState α) (now : Int) (key : String) :
    (getFromL3 st now key).2 = st := by
  unfold getFromL3
  cases alookup key st.l3 with
  | none => rfl
  | some e =>
      by_cases h : e.expiresAt > now
      · simp [h]
      · simp [h]

/-! ### Claim C4 -/

/-- C4: `Get` probes Memory, then Embedded, then Remote, returning on the
first hit; an Embedded hit also writes the value into Memory, and a Remote
hit writes it into Memory and Embedded, in each case under the originally
configured per-tier TTL (`L1TTL`, `L2TTL`) counted from `now` — not the
found entry's remaining time-to-live. -/
theorem C4_get_probe_order_and_promotion (cfg : CacheConfig) (st : CacheState α)
    (now : Int) (key : String) :
    (∀ v st1, getFromL1 st now key = (some v, st1) →
      cacheGet cfg st now key = (some v, st1) ∧ st1.l2 = st.l2 ∧ st1.l3 = st.l3)
    ∧ (∀ st1 v st2, getFromL1 st now key = (none, st1) →
        getFromL2 st1 now key = (some v, st2) →
        cacheGet cfg st now key = (some v, setToL1 cfg st2 now key v cfg.l1TTL) ∧
          alookup key (setToL1 cfg st2 now key v cfg.l1TTL).l1 =
            some { value := v, expiresAt := now + cfg.l1TTL, accessTime := now, hitCount := 0 } ∧
          (setToL1 cfg st2 now key v cfg.l1TTL).l3 = st.l3)
    ∧ (∀ st1 st2 v st3, getFromL1 st now key = (none, st1) →
        getFromL2 st1 now key = (none, st2) →
        getFromL3 st2 now key = (some v, st3) →
        st.l2Fail = false →
        cacheGet cfg st now key =
            (some v, (setToL2 (setToL1 cfg st3 now key v cfg.l1TTL) now key v cfg.l2TTL).2) ∧
          alookup key (cacheGet cfg st now key).2.l1 =
            some { value := v, expiresAt := now + cfg.l1TTL, accessTime := now, hitCount := 0 } ∧
          alookup key (cacheGet cfg st now key).2.l2 =
            some { value := v, expiresAt := now + cfg.l2TTL, accessTime := now, hitCount := 0 }) := by
  refine ⟨?_, ?_, ?_⟩
  · intro v st1 h1
    have hst1 : (getFromL1 st now key).2 = st1 := by rw [h1]
    refine ⟨by simp [cacheGet, h1], ?_, ?_⟩
    · rw [← hst1]; exact (getFromL1_proj st now key).1
    · rw [← hst1]; exact (getFromL1_proj st now key).2.1
  · intro st1 v st2 h1 h2
    have hst1 : (getFromL1 st now key).2 = st1 := by rw [h1]
    have hst2 : (getFromL2 st1 now key).2 = st2 := by rw [h2]
    refine ⟨by simp [cacheGet, h1, h2], alookup_aupsert key _ _, ?_⟩
    have e3 : (setToL1 cfg st2 now key v cfg.l1TTL).l3 = st2.l3 := rfl
    rw [e3, ← hst2]
    rw [(getFromL2_proj st1 now key).2.1, ← hst1]
    exact (getFromL1_proj st now key).2.1
  · intro st1 st2 v st3 h1 h2 h3 hok
    have hst1 : (getFromL1 st now key).2 = st1 := by rw [h1]
    have hst2 : (getFromL2 st1 now key).2 = st2 := by rw [h2]
    have hmain : cacheGet cfg st now key =
        (some v, (setToL2 (setToL1 cfg st3 now key v cfg.l1TTL) now key v cfg.l2TTL).2) := by
      simp [cacheGet, h1, h2, h3]
    have hfail : st3.l2Fail = false := by
      have e1 : st3 = st2 := by
        have := getFromL3_state st2 now key
        rw [h3] at this
        exact this
      rw [e1, ← hst2, (getFromL2_proj st1 now key).2.2, ← hst1,
        (getFromL1_proj st now key).2.2, hok]
    have hfail4 : (setToL1 cfg st3 now key v cfg.l1TTL).l2Fail = false := hfail
    refine ⟨hmain, ?_, ?_⟩
    · rw [hmain]
      have : (setToL2 (setToL1 cfg st3 now key v cfg.l1TTL) now key v cfg.l2TTL).2.l1 =
          (setToL1 cfg st3 now key v cfg.l1TTL).l1 := by
        simp [setToL2, hfail4]
      rw [this]
      exact alookup_aupsert key _ _
    · rw [hmain]
      have : (setToL2 (setToL1 cfg st3 now key v cfg.l1TTL) now key v cfg.l2TTL).2.l2 =
          aupsert key { value := v, expiresAt := now + cfg.l2TTL, accessTime := now, hitCount := 0 }
            (setToL1 cfg st3 now key v cfg.l1TTL).l2 := by
        simp [setToL2, hfail4]
      rw [this]
      exact alookup_aupsert key _ _

/-- Witness for C4: an L1 hit returns without promotion; an L2 hit
promotes into L1; an L3 hit promotes into L1 and L2. -/
theorem C4_witness :
    (cacheGet cacheCfgEx stL1hitEx 10 "k" = (some 7, stL1hitUpdEx)) ∧
      (cacheGet cacheCfgEx stL2hitEx 10 "k" =
        (some 8, setToL1 cacheCfgEx stL2hitUpdEx 10 "k" 8 cacheCfgEx.l1TTL)) ∧
      (cacheGet cacheCfgEx stL3hitEx 10 "k" =
        (some 9,
         (setToL2 (setToL1 cacheCfgEx stL3hitEx 10 "k" 9 cacheCfgEx.l1TTL) 10 "k" 9
            cacheCfgEx.l2TTL).2)) :=
  ⟨((C4_get_probe_order_and_promotion cacheCfgEx stL1hitEx 10 "k").1 7 stL1hitUpdEx
      (by decide)).1,
   ((C4_get_probe_order_and_promotion cacheCfgEx stL2hitEx 10 "k").2.1 stL2hitEx 8
      stL2hitUpdEx (by decide) (by decide)).1,
   ((C4_get_probe_order_and_promotion cacheCfgEx stL3hitEx 10 "k").2.2 stL3hitEx
      stL3hitEx 9 stL3hitEx (by decide) (by decide) (by decide) rfl).1⟩

/-! ### Claim C6 -/

/-- C6: after `Set(k, v, ttl)` at time `now` (with a healthy L2), a `Get`
at any time strictly before `now + ttl` returns `v`, and a `Get` at any
time strictly after `now + ttl` returns not-found, even though all three
tiers still physically hold the entry. -/
theorem C6_no_expired_reads (cfg : CacheConfig) (st : CacheState α) (now ttl : Int)
    (key : String) (v : α) (st1 : CacheState α) (hok : st.l2Fail = false)
    (hset : cacheSet cfg st now key v ttl = (none, st1)) :
    (∀ t : Int, t < now + ttl → (cacheGet cfg st1 t key).1 = some v)
    ∧ (∀ t : Int, now + ttl < t →
        alookup key st1.l1 =
            some { value := v, expiresAt := now + ttl, accessTime := now, hitCount := 0 } ∧
          alookup key st1.l2 =
            some { value := v, expiresAt := now + ttl, accessTime := now, hitCount := 0 } ∧
          alookup key st1.l3 = some { value := v, expiresAt := now + ttl } ∧
          (cacheGet cfg st1 t key).1 = none) := by
  have hfail1 : (setToL1 cfg st now key v ttl).l2Fail = false := hok
  simp only [cacheSet, setToL2, hfail1, Bool.false_eq_true, if_false, Prod.mk.injEq,
    true_and] at hset
  have hl1 : alookup key st1.l1 =
      some { value := v, expiresAt := now + ttl, accessTime := now, hitCount := 0 } := by
    rw [← hset]
    exact alookup_aupsert key _ _
  have hl2 : alookup key st1.l2 =
      some { value := v, expiresAt := now + ttl, accessTime := now, hitCount := 0 } := by
    rw [← hset]
    exact alookup_aupsert key _ _
  have hl3 : alookup key st1.l3 = some { value := v, expiresAt := now + ttl } := by
    rw [← hset]
    exact alookup_aupsert key _ _
  constructor
  · intro t ht
    have hne : ¬ t > now + ttl := by omega
    simp [cacheGet, getFromL1, hl1, hne]
  · intro t ht
    have hgt : t > now + ttl := ht
    have hne : ¬ (now + ttl > t) := by omega
    refine ⟨hl1, hl2, hl3, ?_⟩
    simp [cacheGet, getFromL1, getFromL2, getFromL3, hl1, hl2, hl3, hgt, hne]

/-- Witness for C6 at the concrete cache `stSetEx` produced by
`Set("k", 5, 100)` at time 0: a read at 99 hits, a read at 101 misses. -/
theorem C6_witness :
    (cacheGet cacheCfgEx stSetEx 99 "k").1 = some 5 ∧
      (cacheGet cacheCfgEx stSetEx 101 "k").1 = none := by
  have h := C6_no_expired_reads cacheCfgEx stEmptyEx 0 100 "k" 5 stSetEx rfl (by decide)
  exact ⟨h.1 99 (by decide), (h.2 101 (by decide)).2.2.2⟩

/-! ### Claim C10 -/

/-- C10: when the Embedded-tier write fails, `Set` returns the L2 error,
but the value has already been inserted into the Memory tier, so a `Get`
before the TTL elapses returns the new value. -/
theorem C10_failed_set_still_writes_memory (cfg : CacheConfig) (st : CacheState α)
    (now ttl : Int) (key : String) (v : α) (hfail : st.l2Fail = true) :
    (cacheSet cfg st now key v ttl).1 = some .l2WriteFailed ∧
      alookup key (cacheSet cfg st now key v ttl).2.l1 =
        some { value := v, expiresAt := now + ttl, accessTime := now, hitCount := 0 } ∧
      (∀ t : Int, t < now + ttl →
        (cacheGet cfg (cacheSet cfg st now key v ttl).2 t key).1 = some v) := by
  have hfail1 : (setToL1 cfg st now key v ttl).l2Fail = true := hfail
  have hset : cacheSet cfg st now key v ttl =
      (some .l2WriteFailed, setToL1 cfg st now key v ttl) := by
    simp [cacheSet, setToL2, hfail1]
  have hl1 : alookup key (cacheSet cfg st now key v ttl).2.l1 =
      some { value := v, expiresAt := now + ttl, accessTime := now, hitCount := 0 } := by
    rw [hset]
    exact alookup_aupsert key _ _
  refine ⟨by rw [hset], hl1, ?_⟩
  intro t ht
  have hne : ¬ t > now + ttl := by omega
  simp [cacheGet, getFromL1, hl1, hne]

/-- Witness for C10: with a failing L2, `Set("k", 5, 100)` at time 0
errors yet a `Get` at time 50 already sees the value. -/
theorem C10_witness :
    (cacheSet cacheCfgEx stL2FailEx 0 "k" 5 100).1 = some .l2WriteFailed ∧
      (cacheGet cacheCfgEx (cacheSet cacheCfgEx stL2FailEx 0 "k" 5 100).2 50 "k").1 =
        some 5 := by
  have h := C10_failed_set_still_writes_memory cacheCfgEx stL2FailEx 0 100 "k" 5 rfl
  exact ⟨h.1, h.2.2 50 (by decide)⟩

/-! ### Eviction-scan lemmas -/

theorem scanEvict_of_forall_le (crit : L1Entry α → Int)
    (l : List (String × L1Entry α)) (b : Int) (k : String)
    (h : ∀ p ∈ l, ¬ crit p.2 < b) :
    scanEvict crit l b k = (b, k) := by
  induction l generalizing b k with
  | nil => rfl
  | cons p rest ih =>
      have hp := h p (by simp)
      rw [scanEvict, if_neg hp]
      exact ih b k (fun q hq => h q (by simp [hq]))

theorem scanEvict_argmin (crit : L1Entry α → Int)
    (l : List (String × L1Entry α)) (b : Int) (k : String)
    (h : ∃ p ∈ l, crit p.2 < b) :
    ∃ i, ∃ hi : i < l.length,
      scanEvict crit l b k = (crit (l.get ⟨i, hi⟩).2, (l.get ⟨i, hi⟩).1) ∧
        crit (l.get ⟨i, hi⟩).2 < b ∧
        (∀ j, ∀ hj : j < l.length, crit (l.get ⟨i, hi⟩).2 ≤ crit (l.get ⟨j, hj⟩).2) ∧
        (∀ j, ∀ hj : j < l.length, j < i →
          crit (l.get ⟨i, hi⟩).2 < crit (l.get ⟨j, hj⟩).2) := by
  induction l generalizing b k with
  | nil => simp at h
  | cons p rest ih =>
      by_cases hp : crit p.2 < b
      · by_cases hrest : ∃ q ∈ rest, crit q.2 < crit p.2
        · obtain ⟨i, hi, hres, hlt, hle, hstrict⟩ := ih (crit p.2) p.1 hrest
          refine ⟨i + 1, by simpa using Nat.succ_lt_succ hi, ?_, ?_, ?_, ?_⟩
          · rw [scanEvict, if_pos hp]
            simpa using hres
          · calc crit ((p :: rest).get ⟨i + 1, _⟩).2
                = crit (rest.get ⟨i, hi⟩).2 := by simp
              _ < crit p.2 := hlt
              _ < b := hp
          · intro j hj
            match j with
            | 0 =>
                simpa using le_of_lt (lt_of_le_of_lt (le_refl _) (by simpa using hlt))
            | j + 1 =>
                have := hle j (by simpa using Nat.lt_of_succ_lt_succ hj)
                simpa using this
          · intro j hj hji
            match j with
            | 0 => simpa using hlt
            | j + 1 =>
                have := hstrict j (by simpa using Nat.lt_of_succ_lt_succ hj)
                  (Nat.lt_of_succ_lt_succ hji)
                simpa using this
        · push_neg at hrest
          refine ⟨0, by simp, ?_, by simpa using hp, ?_, ?_⟩
          · rw [scanEvict, if_pos hp]
            simpa using scanEvict_of_forall_le crit rest (crit p.2) p.1
              (fun q hq => not_lt.mpr (hrest q hq))
          · intro j hj
            match j with
            | 0 => simp
            | j + 1 =>
                have := hrest (rest.get ⟨j, Nat.lt_of_succ_lt_succ hj⟩)
                  (List.get_mem rest j (Nat.lt_of_succ_lt_succ hj))
                simpa using this
          · intro j hj hji
            exact absurd hji (Nat.not_lt_zero j)
      · have hx : ∃ q ∈ rest, crit q.2 < b := by
          obtain ⟨q, hq, hlt⟩ := h
          rcases List.mem_cons.mp hq with rfl | hq2
          · exact absurd hlt hp
          · exact ⟨q, hq2, hlt⟩
        obtain ⟨i, hi, hres, hlt, hle, hstrict⟩ := ih b k hx
        refine ⟨i + 1, by simpa using Nat.succ_lt_succ hi, ?_, ?_, ?_, ?_⟩
        · rw [scanEvict, if_neg hp]
          simpa using hres
        · simpa using hlt
        · intro j hj
          match j with
          | 0 =>
              have : crit (rest.get ⟨i, hi⟩).2 < crit p.2 := lt_of_lt_of_le hlt (not_lt.mp hp)
              simpa using le_of_lt this
          | j + 1 =>
              have := hle j (by simpa using Nat.lt_of_succ_lt_succ hj)
              simpa using this
        · intro j hj hji
          match j with
          | 0 =>
              have : crit (rest.get ⟨i, hi⟩).2 < crit p.2 := lt_of_lt_of_le hlt (not_lt.mp hp)
              simpa using this
          | j + 1 =>
              have := hstrict j (by simpa using Nat.lt_of_succ_lt_succ hj)
                (Nat.lt_of_succ_lt_succ hji)
              simpa using this

/-! ### Claim C5 -/

/-- C5 counterexample: with the TTL policy, a one-slot L1 whose single
entry expires 25 hours out (beyond the scan's `now + 24h` initial bound),
a `Set` of the fresh key `"b"` evicts nothing, and the tier ends with 2
entries although `L1MaxItems = 1`. -/
theorem C5_counterexample :
    cfgTTLEx.l1MaxItems = 1 ∧ stTTLFullEx.l1.length = 1 ∧
      alookup "b" stTTLFullEx.l1 = none ∧
      (setToL1 cfgTTLEx stTTLFullEx 0 "b" 5 100).l1.length = 2 := by
  decide

/-- C5 (amended): whenever the Memory tier already holds `L1MaxItems`
entries, a `Set` of a new (non-empty) key evicts exactly one entry before
inserting — provided some entry's criterion lies strictly below the scan's
initial bound (`lastAccess < now` for LRU, `hitCount < 2^63 − 1` for LFU,
`expiresAt < now + 24h` for TTL) — so the tier again holds exactly
`L1MaxItems` entries, and the evicted entry is the policy minimum
(oldest `lastAccess` under LRU, lowest `hitCount` under LFU, soonest
`expiresAt` under TTL), ties broken by iteration order (first wins). -/
theorem C5_amended_eviction (cfg : CacheConfig) (st : CacheState α) (now : Int)
    (key : String) (v : α) (ttl : Int)
    (hlen : (st.l1.length : Int) = cfg.l1MaxItems)
    (hfresh : alookup key st.l1 = none)
    (hkeys : ∀ p ∈ st.l1, p.1 ≠ "")
    (hguard : ∃ p ∈ st.l1, critOf cfg.evictionPolicy p.2 < boundOf cfg.evictionPolicy now) :
    ((setToL1 cfg st now key v ttl).l1.length : Int) = cfg.l1MaxItems ∧
      ∃ i, ∃ hi : i < st.l1.length,
        evictScanKey cfg.evictionPolicy now st.l1 = (st.l1.get ⟨i, hi⟩).1 ∧
          (setToL1 cfg st now key v ttl).l1 =
            aupsert key { value := v, expiresAt := now + ttl, accessTime := now, hitCount := 0 }
              (aremove ((st.l1.get ⟨i, hi⟩).1) st.l1) ∧
          (∀ j, ∀ hj : j < st.l1.length,
            critOf cfg.evictionPolicy (st.l1.get ⟨i, hi⟩).2 ≤
              critOf cfg.evictionPolicy (st.l1.get ⟨j, hj⟩).2) ∧
          (∀ j, ∀ hj : j < st.l1.length, j < i →
            critOf cfg.evictionPolicy (st.l1.get ⟨i, hi⟩).2 <
              critOf cfg.evictionPolicy (st.l1.get ⟨j, hj⟩).2) := by
  obtain ⟨i, hi, hres, hlt, hle, hstrict⟩ :=
    scanEvict_argmin (critOf cfg.evictionPolicy) st.l1
      (boundOf cfg.evictionPolicy now) "" hguard
  have hne : st.l1 ≠ [] := by
    intro h0
    rw [h0] at hi
    exact Nat.not_lt_zero i hi
  have hkey : evictScanKey cfg.evictionPolicy now st.l1 = (st.l1.get ⟨i, hi⟩).1 := by
    unfold evictScanKey
    rw [hres]
  have hkne : (st.l1.get ⟨i, hi⟩).1 ≠ "" := hkeys _ (List.get_mem st.l1 i hi)
  have hevict : evictFromL1 cfg.evictionPolicy now st.l1 =
      aremove ((st.l1.get ⟨i, hi⟩).1) st.l1 := by
    unfold evictFromL1
    rw [if_neg (by simpa [List.isEmpty_iff] using hne), hkey, if_neg hkne]
  have hcap : cfg.l1MaxItems ≤ (st.l1.length : Int) := le_of_eq hlen.symm
  have hsetl1 : (setToL1 cfg st now key v ttl).l1 =
      aupsert key { value := v, expiresAt := now + ttl, accessTime := now, hitCount := 0 }
        (aremove ((st.l1.get ⟨i, hi⟩).1) st.l1) := by
    unfold setToL1
    simp only [if_pos hcap, hevict]
  have hmem : (st.l1.get ⟨i, hi⟩).1 ∈ st.l1.map Prod.fst :=
    List.mem_map_of_mem Prod.fst (List.get_mem st.l1 i hi)
  have hrmlen : (aremove ((st.l1.get ⟨i, hi⟩).1) st.l1).length + 1 = st.l1.length :=
    aremove_length_of_mem _ _ hmem
  have hfresh2 : alookup key (aremove ((st.l1.get ⟨i, hi⟩).1) st.l1) = none :=
    alookup_aremove_none key _ st.l1 hfresh
  have hfinal : (setToL1 cfg st now key v ttl).l1.length = st.l1.length := by
    rw [hsetl1, aupsert_length_of_none _ _ _ hfresh2, hrmlen]
  refine ⟨by rw [hfinal]; exact hlen, i, hi, hkey, hsetl1, hle, hstrict⟩

/-- Witness for C5 (amended) under the LRU policy: a full two-slot L1
where `"b"` has the oldest `lastAccess`; setting fresh key `"c"` keeps the
tier at 2 entries and evicts `"b"`. -/
theorem C5_witness :
    ((setToL1 cacheCfgEx stLRUFullEx 10 "c" 4 100).l1.length : Int) =
        cacheCfgEx.l1MaxItems ∧
      evictScanKey cacheCfgEx.evictionPolicy 10 stLRUFullEx.l1 = "b" :=
  ⟨(C5_amended_eviction cacheCfgEx stLRUFullEx 10 "c" 4 100 (by decide) (by decide)
      (by decide) ⟨("b", ⟨2, 60, 1, 0⟩), by decide, by decide⟩).1,
   by decide⟩

/-! ### Mode-derivation lemmas -/

theorem downCount_le_criticalCount (services : List ServiceConfig)
    (errCount : String → Int) (threshold : Int) :
    downCount services errCount threshold ≤ criticalCount services := by
  induction services with
  | nil => simp [downCount, criticalCount]
  | cons s rest ih =>
      simp only [downCount, criticalCount, List.filter_cons] at ih ⊢
      cases hcrit : s.critical <;> cases hdec : decide (threshold ≤ errCount s.name) <;>
        simp [hcrit, hdec] <;> omega

theorem downCount_congr (services : List ServiceConfig)
    (errCount errCount2 : String → Int) (threshold : Int)
    (h : ∀ s ∈ services, s.critical = true → errCount2 s.name = errCount s.name) :
    downCount services errCount2 threshold = downCount services errCount threshold := by
  induction services with
  | nil => rfl
  | cons s rest ih =>
      have hrest := ih (fun q hq hc => h q (by simp [hq]) hc)
      simp only [downCount, List.filter_cons] at hrest ⊢
      cases hcrit : s.critical
      · simpa [hcrit] using hrest
      · rw [h s (by simp) hcrit]
        by_cases hd : threshold ≤ errCount s.name <;> simp [hcrit, hd, hrest]

/-! ### Claim C7 -/

/-- C7: the operating mode derived by `updateMode` depends only on how
many critical services are at or over the failure threshold: zero ⇒
Online, all (of at least one) ⇒ Offline, some but not all ⇒ Limited; and
the error counts of non-critical services never influence the result. -/
theorem C7_mode_derivation (services : List ServiceConfig)
    (errCount : String → Int) (threshold : Int) :
    (downCount services errCount threshold = 0 →
      updateMode services errCount threshold = .onlineMode)
    ∧ (0 < criticalCount services →
        downCount services errCount threshold = criticalCount services →
        updateMode services errCount threshold = .offlineMode)
    ∧ (0 < downCount services errCount threshold →
        downCount services errCount threshold < criticalCount services →
        updateMode services errCount threshold = .limitedMode)
    ∧ (∀ errCount2 : String → Int,
        (∀ s ∈ services, s.critical = true → errCount2 s.name = errCount s.name) →
        updateMode services errCount2 threshold = updateMode services errCount threshold) := by
  refine ⟨?_, ?_, ?_, ?_⟩
  · intro h
    simp [updateMode, h]
  · intro hpos heq
    have h1 : ¬ downCount services errCount threshold = 0 := by omega
    have h2 : ¬ downCount services errCount threshold < criticalCount services := by omega
    simp [updateMode, h1, h2]
  · intro hpos hlt
    have h1 : ¬ downCount services errCount threshold = 0 := by omega
    simp [updateMode, h1, hlt]
  · intro errCount2 h
    unfold updateMode
    rw [downCount_congr services errCount errCount2 threshold h]

/-- Witness for C7 with three critical services and threshold 3: none
failing ⇒ Online, one failing ⇒ Limited, all failing ⇒ Offline. -/
theorem C7_witness :
    updateMode servicesEx errAllZeroEx 3 = .onlineMode ∧
      updateMode servicesEx errOneDownEx 3 = .limitedMode ∧
      updateMode servicesEx errAllDownEx 3 = .offlineMode :=
  ⟨(C7_mode_derivation servicesEx errAllZeroEx 3).1 (by decide),
   (C7_mode_derivation servicesEx errOneDownEx 3).2.2.1 (by decide) (by decide),
   (C7_mode_derivation servicesEx errAllDownEx 3).2.1 (by decide) (by decide)⟩

/-! ### Claim C8 -/

/-- C8: `GetVulnerabilityData` returns a cache hit immediately in every
mode with no live call; on a miss, Online fetches live and caches the
result, Limited consults the local store first and fetches live only when
the local store is empty for the key, and Offline consults only the local
store and never attempts a live call. -/
theorem C8_vulnerability_data_fallback (cfg : CacheConfig) (st : CacheState α)
    (live : String → α) (localDB : String → Option α) (now : Int) (cveID : String) :
    (∀ v st1, cacheGet cfg st now (cveKey cveID) = (some v, st1) →
      ∀ mode, getVulnerabilityData cfg st live localDB mode now cveID = (.ok v, st1, 0))
    ∧ (∀ st1, cacheGet cfg st now (cveKey cveID) = (none, st1) →
        (getVulnerabilityData cfg st live localDB .onlineMode now cveID =
            (.ok (live cveID),
             (cacheSet cfg st1 now (cveKey cveID) (live cveID) hourNs).2, 1))
        ∧ (∀ v, localDB cveID = some v →
            getVulnerabilityData cfg st live localDB .limitedMode now cveID =
              (.ok v, st1, 0))
        ∧ (localDB cveID = none →
            getVulnerabilityData cfg st live localDB .limitedMode now cveID =
              (.ok (live cveID),
               (cacheSet cfg st1 now (cveKey cveID) (live cveID) hourNs).2, 1))
        ∧ (∀ v, localDB cveID = some v →
            getVulnerabilityData cfg st live localDB .offlineMode now cveID =
              (.ok v, st1, 0))
        ∧ (localDB cveID = none →
            getVulnerabilityData cfg st live localDB .offlineMode now cveID =
              (.error "vulnerability not found in local database", st1, 0))) := by
  constructor
  · intro v st1 h mode
    simp [getVulnerabilityData, h]
  · intro st1 h
    refine ⟨?_, ?_, ?_, ?_, ?_⟩
    · simp [getVulnerabilityData, fetchFromLiveAPI, h]
    · intro v hdb
      simp [getVulnerabilityData, h, hdb]
    · intro hdb
      simp [getVulnerabilityData, fetchFromLiveAPI, h, hdb]
    · intro v hdb
      simp [getVulnerabilityData, h, hdb]
    · intro hdb
      simp [getVulnerabilityData, h, hdb]

/-- Witness for C8: a cached key is served in Offline mode; on misses the
three modes follow their respective sourcing chains. -/
theorem C8_witness :
    getVulnerabilityData cacheCfgEx stCveHitEx liveEx localDBNoneEx .offlineMode 10 "CVE-1" =
        (.ok 5, stCveHitUpdEx, 0) ∧
      getVulnerabilityData cacheCfgEx stEmptyEx liveEx localDBNoneEx .onlineMode 10 "CVE-1" =
        (.ok 42, (cacheSet cacheCfgEx stEmptyEx 10 (cveKey "CVE-1") 42 hourNs).2, 1) ∧
      getVulnerabilityData cacheCfgEx stEmptyEx liveEx localDBSomeEx .limitedMode 10 "CVE-1" =
        (.ok 7, stEmptyEx, 0) ∧
      getVulnerabilityData cacheCfgEx stEmptyEx liveEx localDBNoneEx .limitedMode 10 "CVE-1" =
        (.ok 42, (cacheSet cacheCfgEx stEmptyEx 10 (cveKey "CVE-1") 42 hourNs).2, 1) ∧
      getVulnerabilityData cacheCfgEx stEmptyEx liveEx localDBNoneEx .offlineMode 10 "CVE-1" =
        (.error "vulnerability not found in local database", stEmptyEx, 0) :=
  ⟨(C8_vulnerability_data_fallback cacheCfgEx stCveHitEx liveEx localDBNoneEx 10 "CVE-1").1
      5 stCveHitUpdEx (by decide) .offlineMode,
   ((C8_vulnerability_data_fallback cacheCfgEx stEmptyEx liveEx localDBNoneEx 10 "CVE-1").2
      stEmptyEx (by decide)).1,
   ((C8_vulnerability_data_fallback cacheCfgEx stEmptyEx liveEx localDBSomeEx 10 "CVE-1").2
      stEmptyEx (by decide)).2.1 7 rfl,
   ((C8_vulnerability_data_fallback cacheCfgEx stEmptyEx liveEx localDBNoneEx 10 "CVE-1").2
      stEmptyEx (by decide)).2.2.1 rfl,
   ((C8_vulnerability_data_fallback cacheCfgEx stEmptyEx liveEx localDBNoneEx 10 "CVE-1").2
      stEmptyEx (by decide)).2.2.2.2 rfl⟩

/-! ### Queue lemmas -/

theorem popNext_flatten (b : Buffers) (r : QRequest) (b2 : Buffers)
    (h : popNext b = some (r, b2)) :
    b.critical ++ b.high ++ b.normal ++ b.low =
      r :: (b2.critical ++ b2.high ++ b2.normal ++ b2.low) := by
  unfold popNext at h
  cases hc : b.critical with
  | cons x xs =>
      rw [hc] at h
      simp only [Option.some.injEq, Prod.mk.injEq] at h
      obtain ⟨h1, h2⟩ := h
      subst h1
      rw [← h2]
      simp
  | nil =>
      rw [hc] at h
      cases hh : b.high with
      | cons x xs =>
          rw [hh] at h
          simp only [Option.some.injEq, Prod.mk.injEq] at h
          obtain ⟨h1, h2⟩ := h
          subst h1
          rw [← h2]
          simp
      | nil =>
          rw [hh] at h
          cases hn : b.normal with
          | cons x xs =>
              rw [hn] at h
              simp only [Option.some.injEq, Prod.mk.injEq] at h
              obtain ⟨h1, h2⟩ := h
              subst h1
              rw [← h2]
              simp
          | nil =>
              rw [hn] at h
              cases hl : b.low with
              | cons x xs =>
                  rw [hl] at h
                  simp only [Option.some.injEq, Prod.mk.injEq] at h
                  obtain ⟨h1, h2⟩ := h
                  subst h1
                  rw [← h2]
                  simp
              | nil =>
                  rw [hl] at h
                  simp at h

theorem wstep_count (bs : Nat) (s : WorkerState) (e : WEvent) (a : QRequest) :
    (allReqs (wstep bs s e)).count a = (allReqs s).count a := by
  unfold wstep
  cases hex : s.exited with
  | true => simp
  | false =>
      rw [if_neg (by simp)]
      cases e with
      | shutdownSignal =>
          simp only [allReqs, List.count_append, List.count_nil]
          omega
      | tickSignal =>
          simp only [allReqs, List.count_append, List.count_nil]
          omega
      | tryNext =>
          cases hpop : popNext s.bufs with
          | none => simp
          | some pr =>
              obtain ⟨r, bufs2⟩ := pr
              have hflat := popNext_flatten s.bufs r bufs2 hpop
              have hcnt := congrArg (fun l => l.count a) hflat
              simp only [List.count_append, List.count_cons] at hcnt
              by_cases hfull : bs ≤ (s.batch ++ [r]).length
              · simp only [allReqs, hfull, ite_true, List.count_append,
                  List.count_nil, List.count_cons] at hcnt ⊢
                omega
              · simp only [allReqs, hfull, ite_false, List.count_append,
                  List.count_nil, List.count_cons] at hcnt ⊢
                omega

theorem wrun_count (bs : Nat) (events : List WEvent) (s : WorkerState) (a : QRequest) :
    (allReqs (wrun bs s events)).count a = (allReqs s).count a := by
  induction events generalizing s with
  | nil => rfl
  | cons e rest ih =>
      have h1 : wrun bs s (e :: rest) = wrun bs (wstep bs s e) rest := rfl
      rw [h1, ih (wstep bs s e), wstep_count]

theorem wrun_perm (bs : Nat) (s : WorkerState) (events : List WEvent) :
    (allReqs (wrun bs s events)).Perm (allReqs s) :=
  List.perm_iff_count.mpr (fun a => wrun_count bs events s a)

/-! ### Claim C9 -/

/-- C9 counterexample: a worker with an empty batch and one request
sitting in the low buffer: the shutdown signal makes it exit with the
request still buffered and its result channel never resolved — the claim
that workers drain every buffered item before exiting fails here. -/
theorem C9_counterexample :
    (wrun 10 wsAbandonEx [.shutdownSignal]).exited = true ∧
      (wrun 10 wsAbandonEx [.shutdownSignal]).resolved = [] ∧
      reqEx ∈ allReqs wsAbandonEx ∧
      reqEx ∉ (wrun 10 wsAbandonEx [.shutdownSignal]).resolved ∧
      (wrun 10 wsAbandonEx [.shutdownSignal]).bufs.low = [reqEx] := by
  decide

/-- C9 (amended): requests are conserved — over any schedule the multiset
of buffered, batched and resolved requests is invariant, so (for distinct
accepted requests) no request is ever resolved twice; and on the shutdown
signal a worker flushes exactly its current partial batch, leaves the
buffers untouched, and exits — buffered requests are abandoned
unresolved. -/
theorem C9_amended_queue_conservation (bs : Nat) (s : WorkerState)
    (events : List WEvent) :
    (allReqs (wrun bs s events)).Perm (allReqs s)
    ∧ ((allReqs s).Nodup → (wrun bs s events).resolved.Nodup)
    ∧ (s.exited = false →
        wstep bs s .shutdownSignal =
          { s with
            resolved := s.resolved ++ s.batch
            batch := []
            exited := true }) := by
  refine ⟨wrun_perm bs s events, ?_, ?_⟩
  · intro hnd
    have hall : (allReqs (wrun bs s events)).Nodup :=
      ((wrun_perm bs s events).nodup_iff).mpr hnd
    unfold allReqs at hall
    exact hall.of_append_right
  · intro hex
    simp [wstep, hex]

/-- Witness for C9 (amended) on a worker with two buffered requests and
one batched request. -/
theorem C9_witness :
    (allReqs (wrun 3 wsMixEx [.tryNext, .tickSignal])).Perm (allReqs wsMixEx) ∧
      (wrun 3 wsMixEx [.tryNext, .tickSignal]).resolved.Nodup ∧
      wstep 3 wsMixEx .shutdownSignal =
        { wsMixEx with
          resolved := wsMixEx.resolved ++ wsMixEx.batch
          batch := []
          exited := true } := by
  have h := C9_amended_queue_conservation 3 wsMixEx [.tryNext, .tickSignal]
  exact ⟨h.1, h.2.1 (by decide), h.2.2 rfl⟩

end Keystone
